import Mathlib

/-!
Verification development for the LiteFinPad expense tracker.

This file shallowly embeds the analytics module (`analytics.py`), the date
parsing helper it uses (`date_utils.py`), and the description-history update
operation (`description_autocomplete.py`), and proves properties of the
embedded operations.

Modelling conventions:
* A Python `datetime` restricted to its calendar date is a `Date` record of
  year/month/day numbers; Python guarantees validity by construction, which is
  `Date.Valid` here.  Python's `date` comparison is tuple comparison, embedded
  as the lexicographic order `Date.dlt`.
* `timedelta` arithmetic on dates is day-by-day successor/predecessor stepping
  (`Date.pred` / `Date.succD`), and `(a - b).days` is the difference of
  proleptic-Gregorian ordinals (`Date.toOrdinal`, day 1 = 0001-01-01).
* Monetary amounts (Python floats) are embedded as rationals; every claim
  checked here computes the same arithmetic expression on both sides, so the
  float/rational gap does not affect any verdict.  Float formatting
  (`f"{x:.2f}"`) is embedded as round-half-to-even at cents over rationals.
* String parsing (`strptime` with the fixed formats `%Y-%m-%d` / `%Y-%m`) is
  embedded over character lists, ASCII digits only.
* `datetime.now()` is an explicit `now : Date` parameter; the filesystem read
  by `calculate_monthly_trend` is an explicit function from paths to read
  outcomes; a Python exception escaping a function is `Option.none`.
-/

namespace LiteFinPad

/-- A calendar date, the date part of a Python `datetime`. -/
structure Date where
  year : Nat
  month : Nat
  day : Nat
deriving DecidableEq

/-- Proleptic Gregorian leap year test, as in Python's `calendar` module. -/
def isLeap (y : Nat) : Bool :=
  y % 4 == 0 && (y % 100 != 0 || y % 400 == 0)

/-- Days in a month, `calendar.monthrange(y, m)[1]`.  Month 0 is unused
junk (0 days). -/
def daysInMonth (y m : Nat) : Nat :=
  match m with
  | 1 => 31
  | 2 => if isLeap y then 29 else 28
  | 3 => 31
  | 4 => 30
  | 5 => 31
  | 6 => 30
  | 7 => 31
  | 8 => 31
  | 9 => 30
  | 10 => 31
  | 11 => 30
  | 12 => 31
  | _ => 0

/-- The dates that Python's `datetime` can represent (year upper bound
omitted; no claim depends on it). -/
def Date.Valid (d : Date) : Prop :=
  1 ≤ d.year ∧ 1 ≤ d.month ∧ d.month ≤ 12 ∧ 1 ≤ d.day ∧ d.day ≤ daysInMonth d.year d.month

instance (d : Date) : Decidable d.Valid := by
  unfold Date.Valid; infer_instance

/-- Python `date` comparison `a < b` (tuple comparison on (year, month, day)). -/
def Date.dlt (a b : Date) : Prop :=
  a.year < b.year ∨ (a.year = b.year ∧
    (a.month < b.month ∨ (a.month = b.month ∧ a.day < b.day)))

instance (a b : Date) : Decidable (Date.dlt a b) := by
  unfold Date.dlt; infer_instance

/-- `a ≤ b` on dates, used only to state claims; the code uses `<`. -/
def Date.dle (a b : Date) : Prop := Date.dlt a b ∨ a = b

instance (a b : Date) : Decidable (Date.dle a b) := by
  unfold Date.dle; infer_instance

/-- Days strictly before month `m` in year `y` (months `1..m-1`;
`daysInMonth y 0 = 0` makes the range sum over `k < m` correct). -/
def daysBeforeMonth (y m : Nat) : Nat :=
  ((List.range m).map (daysInMonth y)).sum

/-- Days strictly before January 1 of year `y` in the proleptic Gregorian
calendar (`date.toordinal` support). -/
def daysBeforeYear (y : Nat) : Nat :=
  365 * (y - 1) + (y - 1) / 4 + (y - 1) / 400 - (y - 1) / 100

/-- `date.toordinal()`: 0001-01-01 is day 1. -/
def Date.toOrdinal (d : Date) : Nat :=
  daysBeforeYear d.year + daysBeforeMonth d.year d.month + d.day

/-- `date.weekday()`: Monday is 0.  0001-01-01 (ordinal 1) is a Monday. -/
def Date.weekday (d : Date) : Nat :=
  (d.toOrdinal + 6) % 7

/-- The previous calendar day (`d - timedelta(days=1)`); junk below
0001-01-01, where Python raises instead. -/
def Date.pred (d : Date) : Date :=
  if 1 < d.day then ⟨d.year, d.month, d.day - 1⟩
  else if 1 < d.month then ⟨d.year, d.month - 1, daysInMonth d.year (d.month - 1)⟩
  else ⟨d.year - 1, 12, 31⟩

/-- The next calendar day (`d + timedelta(days=1)`). -/
def Date.succD (d : Date) : Date :=
  if d.day < daysInMonth d.year d.month then ⟨d.year, d.month, d.day + 1⟩
  else if d.month < 12 then ⟨d.year, d.month + 1, 1⟩
  else ⟨d.year + 1, 1, 1⟩

/-- `d - timedelta(days=n)`. -/
def Date.subDays (d : Date) : Nat → Date
  | 0 => d
  | n + 1 => (Date.pred d).subDays n

/-- `d + timedelta(days=n)`. -/
def Date.addDays (d : Date) : Nat → Date
  | 0 => d
  | n + 1 => (Date.succD d).addDays n

/-! ### Date string parsing (`DateUtils.parse_date`, format `%Y-%m-%d`) -/

/-- Split a character list on a separator character (`str.split` semantics:
`n` separators produce `n+1` parts). -/
def splitOnChar (sep : Char) : List Char → List (List Char)
  | [] => [[]]
  | c :: t =>
    if c = sep then [] :: splitOnChar sep t
    else
      match splitOnChar sep t with
      | h :: r => (c :: h) :: r
      | [] => [[c]]

/-- Numeric value of a nonempty all-ASCII-digit character list, else `none`
(the acceptance test of one `strptime` numeric field). -/
def digitsVal (l : List Char) : Option Nat :=
  if l ≠ [] ∧ l.all Char.isDigit then
    some (l.foldl (fun a c => a * 10 + (c.toNat - 48)) 0)
  else none

/-- `DateUtils.parse_date`: `datetime.strptime(s, "%Y-%m-%d")`, `none` on
`ValueError`.  `%Y` is exactly 4 digits; `%m` and `%d` are 1 or 2 digits with
values in range (strptime's regex), and the `datetime` constructor then
requires the day to exist in the month and the year to be at least 1. -/
def parse_date (s : String) : Option Date :=
  match splitOnChar '-' s.data with
  | [ys, ms, ds] =>
    match digitsVal ys, digitsVal ms, digitsVal ds with
    | some y, some m, some d =>
      if ys.length = 4 ∧ ms.length ≤ 2 ∧ ds.length ≤ 2 ∧
         1 ≤ y ∧ 1 ≤ m ∧ m ≤ 12 ∧ 1 ≤ d ∧ d ≤ 31 ∧ d ≤ daysInMonth y m then
        some ⟨y, m, d⟩
      else none
    | _, _, _ => none
  | _ => none

/-! ### Expense records and the filter helpers of `ExpenseAnalytics` -/

/-- An expense record `{date, amount, description}`. -/
structure Expense where
  date : String
  amount : ℚ
  description : String
deriving DecidableEq

/-- The body of the loop of `_filter_expenses_by_date_range`: keep an expense
iff its date parses and none of the `continue` branches fire. -/
def keepExpense (start_date end_date : Option Date) (current_date : Date)
    (e : Expense) : Bool :=
  match parse_date e.date with
  | none => false
  | some d =>
    (match start_date with
     | some s => ! decide (Date.dlt d s)
     | none => true) &&
    (match end_date with
     | some en => ! decide (Date.dlt en d)
     | none => ! decide (Date.dlt current_date d))

/-- `ExpenseAnalytics._filter_expenses_by_date_range`.  Python defaults
`current_date` to `datetime.now()`; every caller in the repository passes it,
so it is a plain argument here. -/
def _filter_expenses_by_date_range (expenses : List Expense)
    (start_date end_date : Option Date) (current_date : Date) : List Expense :=
  expenses.filter (keepExpense start_date end_date current_date)

/-- `ExpenseAnalytics._filter_expenses_by_month`. -/
def _filter_expenses_by_month (expenses : List Expense) (month_date : Date)
    (exclude_future : Bool) : List Expense :=
  let month_start : Date := ⟨month_date.year, month_date.month, 1⟩
  let month_end : Date :=
    if month_date.month = 12 then Date.pred ⟨month_date.year + 1, 1, 1⟩
    else Date.pred ⟨month_date.year, month_date.month + 1, 1⟩
  let end_date := if exclude_future then month_date else month_end
  _filter_expenses_by_date_range expenses (some month_start) (some end_date) month_date

/-- `ExpenseAnalytics._filter_expenses_by_week` (week begins Monday). -/
def _filter_expenses_by_week (expenses : List Expense) (week_date : Date)
    (exclude_future : Bool) : List Expense :=
  let week_start := week_date.subDays week_date.weekday
  let week_end := week_start.addDays 6
  let end_date := if exclude_future then week_date else week_end
  _filter_expenses_by_date_range expenses (some week_start) (some end_date) week_date

/-- `ExpenseAnalytics._filter_past_expenses`. -/
def _filter_past_expenses (expenses : List Expense) (current_date : Date) :
    List Expense :=
  _filter_expenses_by_date_range expenses none (some current_date) current_date

/-! ### Analytics calculations.

Each public calculation takes `current_date : Option Date` (the Python keyword
argument) together with the ambient clock `now : Date` standing for
`datetime.now()`, consulted only when `current_date` is absent. -/

/-- Sum of the `amount` fields (`sum(e['amount'] for e in l)`). -/
def sumAmounts (l : List Expense) : ℚ :=
  (l.map (fun e => e.amount)).sum

/-- `ExpenseAnalytics.calculate_day_progress`. -/
def calculate_day_progress (current_date : Option Date) (now : Date) :
    Nat × Nat :=
  let cd := current_date.getD now
  (cd.day, daysInMonth cd.year cd.month)

/-- `ExpenseAnalytics.calculate_week_progress`. -/
def calculate_week_progress (current_date : Option Date) (now : Date) :
    ℚ × Nat :=
  let cd := current_date.getD now
  let base_week := (cd.day - 1) / 7 + 1
  let day_in_week := (cd.day - 1) % 7
  let precise_week : ℚ := (base_week : ℚ) + (day_in_week : ℚ) / 10
  let total_days := daysInMonth cd.year cd.month
  (precise_week, total_days / 7 + (if total_days % 7 > 0 then 1 else 0))

/-- `ExpenseAnalytics.calculate_daily_average`. -/
def calculate_daily_average (expenses : List Expense)
    (current_date : Option Date) (now : Date) : ℚ × Nat :=
  match expenses with
  | [] => (0, 0)
  | _ =>
    let cd := current_date.getD now
    let month_expenses := _filter_expenses_by_month expenses cd true
    let monthly_total := sumAmounts month_expenses
    let days_elapsed := cd.day
    (if 0 < days_elapsed then monthly_total / (days_elapsed : ℚ) else 0,
     days_elapsed)

/-- `ExpenseAnalytics.calculate_weekly_average`. -/
def calculate_weekly_average (expenses : List Expense)
    (current_date : Option Date) (now : Date) : ℚ × Nat :=
  match expenses with
  | [] => (0, 0)
  | _ =>
    let cd := current_date.getD now
    let month_expenses := _filter_expenses_by_month expenses cd true
    let monthly_total := sumAmounts month_expenses
    let weeks_elapsed := (cd.day - 1) / 7 + 1
    (if 0 < weeks_elapsed then monthly_total / (weeks_elapsed : ℚ) else 0,
     weeks_elapsed)

/-- `ExpenseAnalytics.calculate_weekly_pace`.  `days_elapsed` is
`(current_date - week_start).days + 1`, an ordinal difference. -/
def calculate_weekly_pace (expenses : List Expense)
    (current_date : Option Date) (now : Date) : ℚ × ℤ :=
  match expenses with
  | [] => (0, 0)
  | _ =>
    let cd := current_date.getD now
    let week_expenses := _filter_expenses_by_week expenses cd true
    let weekly_total := sumAmounts week_expenses
    let week_start := cd.subDays cd.weekday
    let days_elapsed : ℤ := ((cd.toOrdinal : ℤ) - (week_start.toOrdinal : ℤ)) + 1
    (if 0 < days_elapsed then weekly_total / (days_elapsed : ℚ) else 0,
     days_elapsed)

/-- `ExpenseAnalytics.calculate_median_expense`. -/
def calculate_median_expense (expenses : List Expense)
    (current_date : Option Date) (now : Date) : ℚ × Nat :=
  let cd := current_date.getD now
  let past_expenses := _filter_past_expenses expenses cd
  match past_expenses with
  | [] => (0, 0)
  | _ =>
    let amounts := (past_expenses.map (fun e => e.amount)).mergeSort
      (fun a b => decide (a ≤ b))
    let count := amounts.length
    let median :=
      if count % 2 = 0 then
        (amounts.getD (count / 2 - 1) 0 + amounts.getD (count / 2) 0) / 2
      else amounts.getD (count / 2) 0
    (median, count)

/-- `ExpenseAnalytics.calculate_largest_expense`.  Python's `max` keeps the
first of several maxima, i.e. replaces the running best only on a strictly
larger key. -/
def calculate_largest_expense (expenses : List Expense)
    (current_date : Option Date) (now : Date) : ℚ × String :=
  let cd := current_date.getD now
  let past_expenses := _filter_past_expenses expenses cd
  match past_expenses with
  | [] => (0, "No expenses")
  | h :: t =>
    let largest := t.foldl (fun b e => if b.amount < e.amount then e else b) h
    (largest.amount, largest.description)

/-! ### `ExpenseAnalytics.calculate_monthly_trend`

The function reads `data_YYYY-MM/expenses.json` from disk; the filesystem is
an explicit map from paths to read outcomes (`PrevRead`).  A Python exception
escaping the function (`strptime` failure on `viewed_month_key`, or date
underflow at 0001-01) is `none`. -/

/-- Outcome of reading the previous month's expenses file: absent file,
unreadable/ill-formed file or entries (the catch-all `except`), a JSON list or
dict whose entries carry the given amounts, or JSON of another shape (which
yields no entries). -/
inductive PrevRead where
  | missing : PrevRead
  | failed : PrevRead
  | amounts : List ℚ → PrevRead
  | other : PrevRead
deriving DecidableEq

/-- The previous-month total extracted from a read outcome (`0.0` on missing
file, error, or non-list/dict JSON). -/
def prevTotalOf : PrevRead → ℚ
  | .amounts l => l.sum
  | _ => 0

/-- The trend comparison indicator dict. -/
structure Indicator where
  symbol : String
  percentage : ℚ
  direction : String
  color : String
deriving DecidableEq

/-- Lines 403-434 of `analytics.py`: the comparison indicator from the
current-month total (if given) and the previous-month total. -/
def trendIndicator (current_month_total : Option ℚ) (prev_total : ℚ) :
    Option Indicator :=
  match current_month_total with
  | none => none
  | some t =>
    if prev_total > 0 then
      let difference := t - prev_total
      let percentage := |difference / prev_total * 100|
      if percentage < 5 then some ⟨"≈", percentage, "similar", "#999999"⟩
      else if difference > 0 then some ⟨"▲", percentage, "increase", "#C00000"⟩
      else some ⟨"▼", percentage, "decrease", "#666666"⟩
    else none

/-- `datetime.strptime(s, "%Y-%m")`: 4-digit year at least 1, 1- or 2-digit
month in `1..12`; `none` on `ValueError`. -/
def parseMonthKey (s : String) : Option (Nat × Nat) :=
  match splitOnChar '-' s.data with
  | [ys, ms] =>
    match digitsVal ys, digitsVal ms with
    | some y, some m =>
      if ys.length = 4 ∧ ms.length ≤ 2 ∧ 1 ≤ y ∧ 1 ≤ m ∧ m ≤ 12 then
        some (y, m)
      else none
    | _, _ => none
  | _ => none

/-- `viewed.replace(day=1) - timedelta(days=1)`: last day of the month before
(year, month); `none` where Python overflows (before 0001-02). -/
def prevMonthLastDay (y m : Nat) : Option Date :=
  if y = 1 ∧ m = 1 then none else some (Date.pred ⟨y, m, 1⟩)

/-- The previous-month reference date used by `calculate_monthly_trend`:
relative to `viewed_month_key` when that is truthy (archive mode), else to
the current clock.  Python's `if viewed_month_key:` treats the empty string,
like `None`, as falsy, so both fall back to `datetime.now()`. -/
def trendPrevDate (viewed_month_key : Option String) (now : Date) :
    Option Date :=
  match viewed_month_key with
  | some k =>
    if k = "" then prevMonthLastDay now.year now.month
    else
      match parseMonthKey k with
      | some (y, m) => prevMonthLastDay y m
      | none => none
  | none => prevMonthLastDay now.year now.month

/-- A natural number printed in decimal (structural-recursion `Nat.repr`;
`fuel` bounds the digit count). -/
def natDigitsAux (fuel n : Nat) : List Char :=
  match fuel with
  | 0 => []
  | fuel + 1 =>
    if n < 10 then [Char.ofNat (48 + n)]
    else natDigitsAux fuel (n / 10) ++ [Char.ofNat (48 + n % 10)]

/-- Decimal representation of a natural number. -/
def natRepr (n : Nat) : String :=
  String.mk (natDigitsAux (n + 1) n)

/-- Zero-pad to two digits (`%m`, and the cents of `%.2f`). -/
def pad2 (n : Nat) : String :=
  if n < 10 then "0" ++ natRepr n else natRepr n

/-- Zero-pad to four digits (`%Y`). -/
def pad4 (n : Nat) : String :=
  if n < 10 then "000" ++ natRepr n
  else if n < 100 then "00" ++ natRepr n
  else if n < 1000 then "0" ++ natRepr n
  else natRepr n

/-- `strftime("%Y-%m")`. -/
def fmtYM (d : Date) : String :=
  pad4 d.year ++ "-" ++ pad2 d.month

/-- `strftime("%B")` month names. -/
def monthName (m : Nat) : String :=
  match m with
  | 1 => "January"
  | 2 => "February"
  | 3 => "March"
  | 4 => "April"
  | 5 => "May"
  | 6 => "June"
  | 7 => "July"
  | 8 => "August"
  | 9 => "September"
  | 10 => "October"
  | 11 => "November"
  | 12 => "December"
  | _ => ""

/-- `strftime("%B %Y")`, e.g. "September 2025". -/
def fmtBY (d : Date) : String :=
  monthName d.month ++ " " ++ pad4 d.year

/-- Round to an integer, ties to even (the rounding of `%.2f` formatting). -/
def roundHalfEven (q : ℚ) : ℤ :=
  let f := ⌊q⌋
  let r := q - (f : ℚ)
  if r < 1/2 then f
  else if 1/2 < r then f + 1
  else if f % 2 = 0 then f else f + 1

/-- `f"${x:.2f}"`. -/
def formatMoney (q : ℚ) : String :=
  let c := roundHalfEven (q * 100)
  let a := c.natAbs
  "$" ++ (if q < 0 then "-" else "") ++ natRepr (a / 100) ++ "." ++ pad2 (a % 100)

/-- The path `os.path.join(f"data_{prev_month_key}", 'expenses.json')` read by
`calculate_monthly_trend` (the `prev_month_data_folder` argument is ignored by
the source; the folder is recomputed from the key). -/
def prevPath (prev_date : Date) : String :=
  "data_" ++ fmtYM prev_date ++ "/expenses.json"

/-- `ExpenseAnalytics.calculate_monthly_trend`.  Returns
`(prev_total_formatted, prev_month_name, comparison_indicator)`, or `none`
when a `ValueError`/`OverflowError` escapes. -/
def calculate_monthly_trend (prev_month_data_folder : String)
    (current_month_total : Option ℚ) (viewed_month_key : Option String)
    (now : Date) (fs : String → PrevRead) :
    Option (String × String × Option Indicator) :=
  (trendPrevDate viewed_month_key now).map (fun pd =>
    let prev_total := prevTotalOf (fs (prevPath pd))
    (formatMoney prev_total, fmtBY pd, trendIndicator current_month_total prev_total))

/-! ### `DescriptionHistory.add_or_update` (`description_autocomplete.py`)

State is the `descriptions` list; `datetime.now().strftime('%Y-%m-%d')` is the
explicit `today` argument and the `max_descriptions` setting (default 50) the
explicit `max_descriptions` argument.  `str.lower`/`str.strip` are embedded
for ASCII text. -/

/-- One entry of the description history. -/
structure DescEntry where
  text : String
  count : Nat
  last_used : String
  last_amount : ℚ
deriving DecidableEq

/-- Characters removed by Python `str.strip()` (ASCII whitespace). -/
def isPySpace (c : Char) : Bool :=
  c = ' ' || c = '\t' || c = '\n' || c = '\x0d' || c = '\x0b' || c = '\x0c'

/-- Python `str.strip()` on ASCII whitespace. -/
def pyStrip (s : String) : String :=
  String.mk (((s.data.dropWhile isPySpace).reverse.dropWhile isPySpace).reverse)

/-- ASCII `str.lower()` of one character. -/
def lowerChar (c : Char) : Char :=
  if 'A' ≤ c ∧ c ≤ 'Z' then Char.ofNat (c.toNat + 32) else c

/-- The case-insensitive comparison key `text.lower()` of a string. -/
def lowerKey (s : String) : List Char :=
  s.data.map lowerChar

/-- Python string `a <= b` (lexicographic on code points). -/
def charListLe : List Char → List Char → Bool
  | [], _ => true
  | _ :: _, [] => false
  | a :: as, b :: bs =>
    decide (a.toNat < b.toNat) || (decide (a.toNat = b.toNat) && charListLe as bs)

/-- Update the first entry whose lowercased text is `key` (the in-place
mutation of the dict found by `next(...)`). -/
def updateFirst (key : List Char) (today : String) (amount : ℚ) :
    List DescEntry → List DescEntry
  | [] => []
  | h :: t =>
    if lowerKey h.text = key then
      { h with count := h.count + 1, last_used := today, last_amount := amount } :: t
    else h :: updateFirst key today amount t

/-- Phase-1 sort key order of `add_or_update`: ascending in
`(-count, last_used)`, i.e. count descending then `last_used` ascending. -/
def le1 (a b : DescEntry) : Bool :=
  decide (b.count < a.count) ||
    (decide (a.count = b.count) && charListLe a.last_used.data b.last_used.data)

/-- Phase-2 comparison: `last_used` descending (`sorted(..., reverse=True)`). -/
def le2 (a b : DescEntry) : Bool :=
  charListLe b.last_used.data a.last_used.data

/-- Phase 2 of `add_or_update`'s ordering: re-sort each maximal run of equal
`count` by `last_used` descending (stable), keeping the runs in place. -/
def resortGroups : List DescEntry → List DescEntry
  | [] => []
  | h :: t =>
    (h :: t.takeWhile (fun e => e.count == h.count)).mergeSort le2 ++
      resortGroups (t.dropWhile (fun e => e.count == h.count))
termination_by l => l.length
decreasing_by
  simp only [List.length_cons]
  exact Nat.lt_succ_of_le (List.Sublist.length_le (List.dropWhile_sublist _))

/-- `DescriptionHistory.add_or_update`: normalize, bail out on blank, update
or append, sort (count descending, `last_used` descending within equal
counts, via the two-phase sort of the source), truncate to
`max_descriptions`. -/
def add_or_update (descriptions : List DescEntry) (description : String)
    (amount : ℚ) (today : String) (max_descriptions : Nat) : List DescEntry :=
  let normalized := pyStrip description
  if normalized = "" then descriptions
  else
    let key := lowerKey normalized
    let updated :=
      if descriptions.any (fun d => lowerKey d.text = key) then
        updateFirst key today amount descriptions
      else
        descriptions ++ [⟨normalized, 1, today, amount⟩]
    (resortGroups (updated.mergeSort le1)).take max_descriptions


/-- The Monday of the week of `d`: the date `d.weekday` days earlier
(specification-side name for the `week_start` computation of the source;
`mondayOfWeek_spec` proves it is a Monday). -/
def mondayOfWeek (d : Date) : Date :=
  d.subDays d.weekday

/-- Claim-side order on description-history entries: usage count descending,
ties broken by `last_used` (a `YYYY-MM-DD` string, so lexicographic order is
chronological order) descending. -/
def entryOrder (a b : DescEntry) : Prop :=
  b.count < a.count ∨ (a.count = b.count ∧ charListLe b.last_used.data a.last_used.data = true)

/-! ## Lemmas about the date order and the range filter -/

/-- On dates, `¬ b < a` is `a ≤ b` (tuple order is linear). -/
theorem not_dlt_iff (a b : Date) : ¬ Date.dlt b a ↔ Date.dle a b := by
  cases a; cases b
  simp only [Date.dlt, Date.dle, Date.mk.injEq]
  omega

/-- Characterization of the keep-predicate of
`_filter_expenses_by_date_range`. -/
theorem keepExpense_iff (os oe : Option Date) (cd : Date) (e : Expense) :
    keepExpense os oe cd e = true ↔
      ∃ d, parse_date e.date = some d ∧
        (∀ s, os = some s → Date.dle s d) ∧
        (∀ en, oe = some en → Date.dle d en) ∧
        (oe = none → Date.dle d cd) := by
  cases hp : parse_date e.date with
  | none => simp [keepExpense, hp]
  | some d =>
    cases os <;> cases oe <;>
      simp [keepExpense, hp, not_dlt_iff]

/-- An expense with an unparseable date is never kept. -/
theorem keepExpense_of_invalid (os oe : Option Date) (cd : Date) (e : Expense)
    (h : parse_date e.date = none) : keepExpense os oe cd e = false := by
  simp [keepExpense, h]

/-! ## Calendrical arithmetic: ordinals, predecessor, weekday -/

/-- Every month in range has at least one day. -/
theorem daysInMonth_pos (y m : Nat) (h1 : 1 ≤ m) (hm : m ≤ 12) :
    1 ≤ daysInMonth y m := by
  interval_cases m <;> simp [daysInMonth] <;> split <;> omega

/-- Unfolding of the cumulative month-length table. -/
theorem daysBeforeMonth_succ (y m : Nat) :
    daysBeforeMonth y (m + 1) = daysBeforeMonth y m + daysInMonth y m := by
  simp [daysBeforeMonth, List.range_succ]

/-- December's cumulative offset. -/
theorem daysBeforeMonth_twelve (y : Nat) :
    daysBeforeMonth y 12 = 334 + (if isLeap y then 1 else 0) := by
  have h : List.range 12 = [0, 1, 2, 3, 4, 5, 6, 7, 8, 9, 10, 11] := by decide
  simp only [daysBeforeMonth, h, List.map_cons, List.map_nil, List.sum_cons,
    List.sum_nil, daysInMonth]
  split <;> omega

set_option maxHeartbeats 1600000 in
/-- Year-boundary step of `daysBeforeYear`: a year contributes 365 or 366
days according to the leap rule. -/
theorem daysBeforeYear_succ (y : Nat) (hy : 1 ≤ y) :
    daysBeforeYear (y + 1) = daysBeforeYear y + 365 + (if isLeap y then 1 else 0) := by
  by_cases hl : isLeap y
  · rw [if_pos hl]
    simp only [isLeap, Bool.and_eq_true, beq_iff_eq, Bool.or_eq_true, bne_iff_ne, ne_eq] at hl
    simp only [daysBeforeYear, Nat.add_sub_cancel]
    omega
  · rw [if_neg hl]
    simp only [isLeap, Bool.and_eq_true, beq_iff_eq, Bool.or_eq_true, bne_iff_ne, ne_eq,
      not_and, not_or, not_not] at hl
    simp only [daysBeforeYear, Nat.add_sub_cancel]
    omega

/-- A valid date has a positive ordinal. -/
theorem toOrdinal_pos (d : Date) (hv : d.Valid) : 1 ≤ d.toOrdinal := by
  obtain ⟨_, _, _, hd1, _⟩ := hv
  simp only [Date.toOrdinal]
  omega

/-- The predecessor of a valid date after 0001-01-01 is valid and one ordinal
earlier. -/
theorem toOrdinal_pred (d : Date) (hv : d.Valid) (h2 : 2 ≤ d.toOrdinal) :
    (Date.pred d).Valid ∧ (Date.pred d).toOrdinal = d.toOrdinal - 1 := by
  obtain ⟨Y, M, D⟩ := d
  simp only [Date.Valid] at hv
  obtain ⟨hy, hm1, hm2, hd1, hd2⟩ := hv
  simp only [Date.toOrdinal] at h2
  by_cases hday : 1 < D
  · simp only [Date.pred, if_pos hday, Date.Valid, Date.toOrdinal]
    refine ⟨⟨hy, hm1, hm2, by omega, by omega⟩, by omega⟩
  · by_cases hmon : 1 < M
    · simp only [Date.pred, hday, if_neg, if_pos hmon, if_false, Date.Valid, Date.toOrdinal]
      have hdm := daysInMonth_pos Y (M - 1) (by omega) (by omega)
      have hstep := daysBeforeMonth_succ Y (M - 1)
      have e : M - 1 + 1 = M := by omega
      rw [e] at hstep
      refine ⟨⟨hy, by omega, by omega, hdm, le_refl _⟩, by omega⟩
    · have hm_eq : M = 1 := by omega
      have hd_eq : D = 1 := by omega
      subst hm_eq; subst hd_eq
      have h1 : ∀ z, daysBeforeMonth z 1 = 0 := by
        intro z
        have hr : List.range 1 = [0] := by decide
        simp [daysBeforeMonth, hr, daysInMonth]
      have hy2 : 2 ≤ Y := by
        by_contra hcon
        have hy1 : Y = 1 := by omega
        rw [hy1, h1] at h2
        simp [daysBeforeYear] at h2
      simp only [Date.pred, hday, hmon, if_neg, if_false, Date.Valid, Date.toOrdinal]
      have h12 := daysBeforeMonth_twelve (Y - 1)
      have hyy := daysBeforeYear_succ (Y - 1) (by omega)
      have e : Y - 1 + 1 = Y := by omega
      rw [e] at hyy
      rw [h1]
      refine ⟨⟨by omega, by omega, by omega, by omega, by simp [daysInMonth]⟩, ?_⟩
      cases hL : isLeap (Y - 1) <;>
        simp only [hL, if_true, if_false, Bool.false_eq_true] at hyy h12 <;> omega

/-- Subtracting `k` days from a valid date, staying at or after 0001-01-01,
gives a valid date `k` ordinals earlier. -/
theorem subDays_spec (k : Nat) : ∀ (d : Date), d.Valid → k + 1 ≤ d.toOrdinal →
    (d.subDays k).Valid ∧ (d.subDays k).toOrdinal = d.toOrdinal - k := by
  induction k with
  | zero =>
    intro d hv _
    exact ⟨hv, by simp [Date.subDays]⟩
  | succ k ih =>
    intro d hv hk
    obtain ⟨hv1, he1⟩ := toOrdinal_pred d hv (by omega)
    obtain ⟨hv2, he2⟩ := ih (Date.pred d) hv1 (by omega)
    refine ⟨by simpa [Date.subDays] using hv2, ?_⟩
    simp only [Date.subDays]
    omega

/-- The weekday offset never reaches back past 0001-01-01. -/
theorem weekday_succ_le (d : Date) (hv : d.Valid) : d.weekday + 1 ≤ d.toOrdinal := by
  have := toOrdinal_pos d hv
  simp only [Date.weekday]
  omega

/-- `mondayOfWeek d` is `d.weekday` days before `d` and falls on a Monday. -/
theorem mondayOfWeek_spec (d : Date) (hv : d.Valid) :
    (mondayOfWeek d).toOrdinal = d.toOrdinal - d.weekday ∧
      (mondayOfWeek d).weekday = 0 := by
  obtain ⟨hv2, he⟩ := subDays_spec d.weekday d hv (weekday_succ_le d hv)
  refine ⟨he, ?_⟩
  simp only [mondayOfWeek, Date.weekday] at he ⊢
  rw [he]
  have := toOrdinal_pos d hv
  omega

/-! ## Claim theorems -/

/-- C2: for every expense list and bounds, `_filter_expenses_by_date_range`
keeps exactly the expenses whose date string parses as a valid date `d` with
`start_date ≤ d ≤ end_date` (both bounds inclusive); with no `end_date`,
expenses dated after `current_date` are excluded instead. -/
theorem date_range_filter_membership (expenses : List Expense)
    (sd ed cd : Date) (e : Expense) :
    (e ∈ _filter_expenses_by_date_range expenses (some sd) (some ed) cd ↔
       e ∈ expenses ∧ ∃ d, parse_date e.date = some d ∧ Date.dle sd d ∧ Date.dle d ed) ∧
    (e ∈ _filter_expenses_by_date_range expenses none (some ed) cd ↔
       e ∈ expenses ∧ ∃ d, parse_date e.date = some d ∧ Date.dle d ed) ∧
    (e ∈ _filter_expenses_by_date_range expenses (some sd) none cd ↔
       e ∈ expenses ∧ ∃ d, parse_date e.date = some d ∧ Date.dle sd d ∧ Date.dle d cd) ∧
    (e ∈ _filter_expenses_by_date_range expenses none none cd ↔
       e ∈ expenses ∧ ∃ d, parse_date e.date = some d ∧ Date.dle d cd) := by
  refine ⟨?_, ?_, ?_, ?_⟩ <;>
    simp [_filter_expenses_by_date_range, List.mem_filter, keepExpense_iff]

/-- C8: every filter helper returns an order-preserving subsequence of its
input list (kept records are the input records, without duplication or
reordering). -/
theorem filters_return_subsequences (expenses : List Expense)
    (os oe : Option Date) (cd md wd pd : Date) (ef ef2 : Bool) :
    List.Sublist (_filter_expenses_by_date_range expenses os oe cd) expenses ∧
    List.Sublist (_filter_expenses_by_month expenses md ef) expenses ∧
    List.Sublist (_filter_expenses_by_week expenses wd ef2) expenses ∧
    List.Sublist (_filter_past_expenses expenses pd) expenses :=
  ⟨List.filter_sublist _, List.filter_sublist _, List.filter_sublist _,
   List.filter_sublist _⟩

/-- C3: an expense whose date string does not parse is kept by no filter, and
removing it changes no filter result and no aggregate value (the averages'
and pace's values, and the full median and largest-expense results). -/
theorem invalid_date_expense_contributes_nothing (e : Expense)
    (h : parse_date e.date = none) (l1 l2 : List Expense)
    (os oe : Option Date) (cd : Date) (cdo : Option Date) (now : Date) :
    (∀ xs : List Expense, e ∉ _filter_expenses_by_date_range xs os oe cd) ∧
    _filter_expenses_by_date_range (l1 ++ e :: l2) os oe cd =
      _filter_expenses_by_date_range (l1 ++ l2) os oe cd ∧
    (calculate_daily_average (l1 ++ e :: l2) cdo now).1 =
      (calculate_daily_average (l1 ++ l2) cdo now).1 ∧
    (calculate_weekly_average (l1 ++ e :: l2) cdo now).1 =
      (calculate_weekly_average (l1 ++ l2) cdo now).1 ∧
    (calculate_weekly_pace (l1 ++ e :: l2) cdo now).1 =
      (calculate_weekly_pace (l1 ++ l2) cdo now).1 ∧
    calculate_median_expense (l1 ++ e :: l2) cdo now =
      calculate_median_expense (l1 ++ l2) cdo now ∧
    calculate_largest_expense (l1 ++ e :: l2) cdo now =
      calculate_largest_expense (l1 ++ l2) cdo now := by
  have hkeep : ∀ os2 oe2 cd2, keepExpense os2 oe2 cd2 e = false :=
    fun a b c => keepExpense_of_invalid a b c e h
  have hfil : ∀ (os2 oe2 : Option Date) (cd2 : Date),
      _filter_expenses_by_date_range (l1 ++ e :: l2) os2 oe2 cd2 =
        _filter_expenses_by_date_range (l1 ++ l2) os2 oe2 cd2 := by
    intro os2 oe2 cd2
    simp [_filter_expenses_by_date_range, List.filter_append, List.filter_cons, hkeep]
  have hmonth : ∀ md ef, _filter_expenses_by_month (l1 ++ e :: l2) md ef =
      _filter_expenses_by_month (l1 ++ l2) md ef := by
    intro md ef
    simp only [_filter_expenses_by_month, hfil]
  have hweek : ∀ wd ef, _filter_expenses_by_week (l1 ++ e :: l2) wd ef =
      _filter_expenses_by_week (l1 ++ l2) wd ef := by
    intro wd ef
    simp only [_filter_expenses_by_week, hfil]
  have hins : l1 ++ e :: l2 ≠ [] := by simp
  refine ⟨?_, hfil os oe cd, ?_, ?_, ?_, ?_, ?_⟩
  · intro xs hmem
    simp [_filter_expenses_by_date_range, List.mem_filter, hkeep] at hmem
  · by_cases hnil : l1 ++ l2 = []
    · obtain ⟨rfl, rfl⟩ := List.append_eq_nil.mp hnil
      simp only [List.nil_append]
      simp [calculate_daily_average, _filter_expenses_by_month,
        _filter_expenses_by_date_range, List.filter, hkeep, sumAmounts]
    · obtain ⟨x, xs2, hx⟩ := List.exists_cons_of_ne_nil hins
      obtain ⟨y, ys2, hy⟩ := List.exists_cons_of_ne_nil hnil
      have := hmonth
      rw [hx, hy] at this ⊢
      simp only [calculate_daily_average, this]
  · by_cases hnil : l1 ++ l2 = []
    · obtain ⟨rfl, rfl⟩ := List.append_eq_nil.mp hnil
      simp only [List.nil_append]
      simp [calculate_weekly_average, _filter_expenses_by_month,
        _filter_expenses_by_date_range, List.filter, hkeep, sumAmounts]
    · obtain ⟨x, xs2, hx⟩ := List.exists_cons_of_ne_nil hins
      obtain ⟨y, ys2, hy⟩ := List.exists_cons_of_ne_nil hnil
      have := hmonth
      rw [hx, hy] at this ⊢
      simp only [calculate_weekly_average, this]
  · by_cases hnil : l1 ++ l2 = []
    · obtain ⟨rfl, rfl⟩ := List.append_eq_nil.mp hnil
      simp only [List.nil_append]
      simp [calculate_weekly_pace, _filter_expenses_by_week,
        _filter_expenses_by_date_range, List.filter, hkeep, sumAmounts]
    · obtain ⟨x, xs2, hx⟩ := List.exists_cons_of_ne_nil hins
      obtain ⟨y, ys2, hy⟩ := List.exists_cons_of_ne_nil hnil
      have := hweek
      rw [hx, hy] at this ⊢
      simp only [calculate_weekly_pace, this]
  · simp only [calculate_median_expense, _filter_past_expenses, hfil]
  · simp only [calculate_largest_expense, _filter_past_expenses, hfil]

/-- C4 (amended): for a non-empty expense list and a valid `current_date`,
`calculate_weekly_pace` returns `(pace, days)` with `days = weekday + 1`, the
number of days from the Monday of the week through `current_date` inclusive,
and `pace` the sum of amounts of expenses with valid dates in the inclusive
`[Monday, current_date]` window divided by `days`; and `mondayOfWeek` really
is a Monday. -/
theorem weekly_pace_formula (expenses : List Expense) (d now : Date)
    (hne : expenses ≠ []) (hv : d.Valid) :
    calculate_weekly_pace expenses (some d) now =
      (sumAmounts (_filter_expenses_by_date_range expenses
          (some (mondayOfWeek d)) (some d) d) / ((d.weekday : ℚ) + 1),
       (d.weekday : ℤ) + 1) ∧
    (mondayOfWeek d).weekday = 0 := by
  obtain ⟨x, xs, rfl⟩ := List.exists_cons_of_ne_nil hne
  obtain ⟨hord, hmonday⟩ := mondayOfWeek_spec d hv
  refine ⟨?_, hmonday⟩
  have hle := weekday_succ_le d hv
  have hcast : ((d.toOrdinal : ℤ) - ((d.subDays d.weekday).toOrdinal : ℤ)) + 1 =
      (d.weekday : ℤ) + 1 := by
    have he : (d.subDays d.weekday).toOrdinal = d.toOrdinal - d.weekday := by
      simpa [mondayOfWeek] using hord
    rw [he]
    have hw : d.weekday ≤ d.toOrdinal := by omega
    push_cast [hw]
    ring
  simp only [calculate_weekly_pace, _filter_expenses_by_week, Option.getD_some,
    if_true, mondayOfWeek]
  rw [hcast, if_pos (by omega : (0 : ℤ) < (d.weekday : ℤ) + 1)]
  push_cast
  rfl

/-- C4 counterexample: on the empty expense list `calculate_weekly_pace`
returns days-elapsed 0, not the claimed `weekday + 1` (which is 3 on
Wednesday 2025-10-15). -/
theorem weekly_pace_empty_counterexample :
    (calculate_weekly_pace [] (some ⟨2025, 10, 15⟩) ⟨2025, 10, 15⟩).2 = 0 ∧
    ((⟨2025, 10, 15⟩ : Date).weekday : ℤ) + 1 = 3 ∧ (0 : ℤ) ≠ 3 := by
  refine ⟨rfl, ?_, by decide⟩
  have : (⟨2025, 10, 15⟩ : Date).weekday = 2 := by decide
  rw [this]
  decide

/-- Witness for C4 at a concrete input. -/
theorem weekly_pace_formula_witness :
    (([⟨"2025-10-14", 4, "a"⟩] : List Expense) ≠ [] ∧ (⟨2025, 10, 15⟩ : Date).Valid) ∧
    (calculate_weekly_pace [⟨"2025-10-14", 4, "a"⟩] (some ⟨2025, 10, 15⟩) ⟨2025, 10, 15⟩ =
       (sumAmounts (_filter_expenses_by_date_range [⟨"2025-10-14", 4, "a"⟩]
           (some (mondayOfWeek ⟨2025, 10, 15⟩)) (some ⟨2025, 10, 15⟩) ⟨2025, 10, 15⟩) /
         (((⟨2025, 10, 15⟩ : Date).weekday : ℚ) + 1),
        ((⟨2025, 10, 15⟩ : Date).weekday : ℤ) + 1) ∧
     (mondayOfWeek ⟨2025, 10, 15⟩).weekday = 0) :=
  ⟨⟨List.cons_ne_nil _ _, by decide⟩,
   weekly_pace_formula _ _ ⟨2025, 10, 15⟩ (List.cons_ne_nil _ _) (by decide)⟩

/-- C7 (amended): for a non-empty expense list, both averages divide the same
monthly total `T` by their respective elapsed counts, where `T` sums the
amounts of expenses with valid dates in the inclusive window from the first
of `current_date`'s month through `current_date` (future expenses of the same
month are excluded, contrary to the claim's plain calendar-month reading). -/
theorem daily_weekly_average_formula (expenses : List Expense) (d now : Date)
    (hne : expenses ≠ []) :
    calculate_daily_average expenses (some d) now =
      (sumAmounts (_filter_expenses_by_date_range expenses
          (some ⟨d.year, d.month, 1⟩) (some d) d) / (d.day : ℚ), d.day) ∧
    calculate_weekly_average expenses (some d) now =
      (sumAmounts (_filter_expenses_by_date_range expenses
          (some ⟨d.year, d.month, 1⟩) (some d) d) / (((d.day - 1) / 7 + 1 : ℕ) : ℚ),
       (d.day - 1) / 7 + 1) := by
  obtain ⟨x, xs, rfl⟩ := List.exists_cons_of_ne_nil hne
  constructor
  · simp only [calculate_daily_average, _filter_expenses_by_month, Option.getD_some,
      if_true]
    by_cases hday : 0 < d.day
    · rw [if_pos hday]
    · rw [if_neg hday]
      have h0 : d.day = 0 := by omega
      rw [h0]
      norm_num
  · simp only [calculate_weekly_average, _filter_expenses_by_month, Option.getD_some,
      if_true]
    rw [if_pos (by omega : 0 < (d.day - 1) / 7 + 1)]

/-- C7 counterexample: an expense dated 2025-10-20 lies in the calendar month
of `current_date` 2025-10-15, so the claimed monthly total is 7 and the
claimed average 7/15, but the code excludes it (future relative to
`current_date`) and returns 0. -/
theorem monthly_total_counterexample :
    parse_date "2025-10-20" = some ⟨2025, 10, 20⟩ ∧
    calculate_daily_average [⟨"2025-10-20", 7, "x"⟩] (some ⟨2025, 10, 15⟩) ⟨2025, 10, 15⟩ =
      (0, 15) ∧ (0 : ℚ) ≠ 7 / 15 := by
  refine ⟨by decide, ?_, by norm_num⟩
  have hk : keepExpense (some ⟨2025, 10, 1⟩) (some ⟨2025, 10, 15⟩) ⟨2025, 10, 15⟩
      ⟨"2025-10-20", 7, "x"⟩ = false := by decide
  simp [calculate_daily_average, _filter_expenses_by_month,
    _filter_expenses_by_date_range, List.filter, hk, sumAmounts]

/-- Witness for C7 at a concrete input. -/
theorem daily_weekly_average_formula_witness :
    ([⟨"2025-10-14", 4, "a"⟩] : List Expense) ≠ [] ∧
    (calculate_daily_average [⟨"2025-10-14", 4, "a"⟩] (some ⟨2025, 10, 15⟩) ⟨2025, 10, 15⟩ =
       (sumAmounts (_filter_expenses_by_date_range [⟨"2025-10-14", 4, "a"⟩]
           (some ⟨2025, 10, 1⟩) (some ⟨2025, 10, 15⟩) ⟨2025, 10, 15⟩) / ((15 : ℕ) : ℚ), 15) ∧
     calculate_weekly_average [⟨"2025-10-14", 4, "a"⟩] (some ⟨2025, 10, 15⟩) ⟨2025, 10, 15⟩ =
       (sumAmounts (_filter_expenses_by_date_range [⟨"2025-10-14", 4, "a"⟩]
           (some ⟨2025, 10, 1⟩) (some ⟨2025, 10, 15⟩) ⟨2025, 10, 15⟩) / (((15 - 1) / 7 + 1 : ℕ) : ℚ),
        (15 - 1) / 7 + 1)) :=
  ⟨List.cons_ne_nil _ _,
   daily_weekly_average_formula _ ⟨2025, 10, 15⟩ ⟨2025, 10, 15⟩ (List.cons_ne_nil _ _)⟩

/-- C9 (amended): the empty expense list yields every zero result; when no
expense survives the past filter, the median and largest-expense results are
the zero results, and the three rate calculations return value 0 (their
elapsed-count components, however, are those of `current_date`, not 0). -/
theorem empty_and_allfuture_zero_results (expenses : List Expense)
    (cdo : Option Date) (now : Date) :
    (expenses = [] →
       calculate_daily_average expenses cdo now = (0, 0) ∧
       calculate_weekly_average expenses cdo now = (0, 0) ∧
       calculate_weekly_pace expenses cdo now = (0, 0) ∧
       calculate_median_expense expenses cdo now = (0, 0) ∧
       calculate_largest_expense expenses cdo now = (0, "No expenses")) ∧
    (_filter_past_expenses expenses (cdo.getD now) = [] →
       calculate_median_expense expenses cdo now = (0, 0) ∧
       calculate_largest_expense expenses cdo now = (0, "No expenses") ∧
       (calculate_daily_average expenses cdo now).1 = 0 ∧
       (calculate_weekly_average expenses cdo now).1 = 0 ∧
       (calculate_weekly_pace expenses cdo now).1 = 0) := by
  constructor
  · rintro rfl
    exact ⟨rfl, rfl, rfl, rfl, rfl⟩
  · intro hpast
    have hcd : ∀ a ∈ expenses,
        ¬ keepExpense none (some (cdo.getD now)) (cdo.getD now) a = true := by
      rw [_filter_past_expenses, _filter_expenses_by_date_range,
        List.filter_eq_nil_iff] at hpast
      exact hpast
    have hsub : ∀ (os : Option Date) (a : Expense), a ∈ expenses →
        ¬ keepExpense os (some (cdo.getD now)) (cdo.getD now) a = true := by
      intro os a ha hk
      rcases (keepExpense_iff _ _ _ _).mp hk with ⟨pd, hp, _, he, _⟩
      exact hcd a ha ((keepExpense_iff _ _ _ _).mpr
        ⟨pd, hp, by simp, fun en hen => by cases hen; exact he _ rfl, by simp⟩)
    have hmonth : _filter_expenses_by_month expenses (cdo.getD now) true = [] := by
      simp only [_filter_expenses_by_month, _filter_expenses_by_date_range, if_true,
        List.filter_eq_nil_iff]
      exact fun a ha => hsub _ a ha
    have hweekf : _filter_expenses_by_week expenses (cdo.getD now) true = [] := by
      simp only [_filter_expenses_by_week, _filter_expenses_by_date_range, if_true,
        List.filter_eq_nil_iff]
      exact fun a ha => hsub _ a ha
    refine ⟨?_, ?_, ?_, ?_, ?_⟩
    · simp only [calculate_median_expense, hpast]
    · simp only [calculate_largest_expense, hpast]
    · cases expenses with
      | nil => rfl
      | cons x xs =>
        simp [calculate_daily_average, hmonth, sumAmounts]
    · cases expenses with
      | nil => rfl
      | cons x xs =>
        simp [calculate_weekly_average, hmonth, sumAmounts]
    · cases expenses with
      | nil => rfl
      | cons x xs =>
        simp [calculate_weekly_pace, hweekf, sumAmounts]

/-- C9 counterexample: a single future-dated expense survives no past filter,
yet `calculate_daily_average` returns days-elapsed 15 rather than the zero
result `(0.0, 0)`. -/
theorem zero_results_counterexample :
    _filter_past_expenses [⟨"2025-12-25", 5, "gift"⟩] ⟨2025, 10, 15⟩ = [] ∧
    calculate_daily_average [⟨"2025-12-25", 5, "gift"⟩] (some ⟨2025, 10, 15⟩)
      ⟨2025, 10, 15⟩ ≠ (0, 0) := by
  have hk : keepExpense none (some ⟨2025, 10, 15⟩) ⟨2025, 10, 15⟩
      ⟨"2025-12-25", 5, "gift"⟩ = false := by decide
  constructor
  · simp [_filter_past_expenses, _filter_expenses_by_date_range, List.filter, hk]
  · intro hEq
    have h2 : (calculate_daily_average [⟨"2025-12-25", 5, "gift"⟩]
        (some ⟨2025, 10, 15⟩) ⟨2025, 10, 15⟩).2 = 15 := by
      simp [calculate_daily_average]
    rw [hEq] at h2
    norm_num at h2

/-- Witness for C9 at the empty list. -/
theorem empty_and_allfuture_zero_results_witness :
    (([] : List Expense) = [] ∧
     _filter_past_expenses ([] : List Expense)
       ((some (⟨2025, 10, 15⟩ : Date)).getD ⟨2025, 10, 15⟩) = []) ∧
    (calculate_median_expense [] (some ⟨2025, 10, 15⟩) ⟨2025, 10, 15⟩ = (0, 0) ∧
     calculate_largest_expense [] (some ⟨2025, 10, 15⟩) ⟨2025, 10, 15⟩ = (0, "No expenses") ∧
     (calculate_daily_average [] (some ⟨2025, 10, 15⟩) ⟨2025, 10, 15⟩).1 = 0 ∧
     (calculate_weekly_average [] (some ⟨2025, 10, 15⟩) ⟨2025, 10, 15⟩).1 = 0 ∧
     (calculate_weekly_pace [] (some ⟨2025, 10, 15⟩) ⟨2025, 10, 15⟩).1 = 0) :=
  ⟨⟨rfl, rfl⟩,
   (empty_and_allfuture_zero_results [] (some ⟨2025, 10, 15⟩) ⟨2025, 10, 15⟩).2 rfl⟩

/-- `f"${0.0:.2f}"` is `"$0.00"`. -/
theorem formatMoney_zero : formatMoney 0 = "$0.00" := by
  norm_num [formatMoney, roundHalfEven, natRepr, natDigitsAux, pad2]
  decide

/-- Evaluation of `calculate_monthly_trend` once the previous-month reference
date and previous total are known. -/
theorem calculate_monthly_trend_eval (folder : String) (t? : Option ℚ)
    (key : Option String) (now : Date) (fs : String → PrevRead) (pd : Date)
    (p : ℚ) (hpd : trendPrevDate key now = some pd)
    (hp : prevTotalOf (fs (prevPath pd)) = p) :
    calculate_monthly_trend folder t? key now fs =
      some (formatMoney p, fmtBY pd, trendIndicator t? p) := by
  unfold calculate_monthly_trend
  rw [hpd, ← hp]
  rfl

/-- No indicator without a current total or with a non-positive previous
total. -/
theorem trendIndicator_none (t? : Option ℚ) (p : ℚ) (h : t? = none ∨ ¬ 0 < p) :
    trendIndicator t? p = none := by
  rcases t? with _ | t
  · rfl
  · rcases h with h | h
    · exact absurd h (by simp)
    · simp only [trendIndicator, gt_iff_lt, if_neg h]

/-- C5: with a current-month total `t` and a positive previous-month total
`p`, the returned indicator carries the non-negative percentage
`|t - p| / p * 100` and is the similar / increase / decrease triple exactly
according to `percentage < 5`, `p < t`, `t < p`; with no current total or a
non-positive previous total, the indicator is `None`. -/
theorem monthly_trend_indicator (folder : String) (t? : Option ℚ)
    (key : Option String) (now : Date) (fs : String → PrevRead) (pd : Date)
    (p : ℚ) (hpd : trendPrevDate key now = some pd)
    (hp : prevTotalOf (fs (prevPath pd)) = p) :
    (∀ t, t? = some t → 0 < p →
       calculate_monthly_trend folder t? key now fs =
         some (formatMoney p, fmtBY pd,
           some (if |t - p| / p * 100 < 5 then
                   ⟨"≈", |t - p| / p * 100, "similar", "#999999"⟩
                 else if p < t then
                   ⟨"▲", |t - p| / p * 100, "increase", "#C00000"⟩
                 else ⟨"▼", |t - p| / p * 100, "decrease", "#666666"⟩)) ∧
       0 ≤ |t - p| / p * 100) ∧
    ((t? = none ∨ ¬ 0 < p) →
       calculate_monthly_trend folder t? key now fs =
         some (formatMoney p, fmtBY pd, none)) := by
  have base := calculate_monthly_trend_eval folder t? key now fs pd p hpd hp
  constructor
  · rintro t rfl hpos
    have habs : |(t - p) / p * 100| = |t - p| / p * 100 := by
      rw [abs_mul, abs_div, abs_of_pos hpos]
      norm_num
    refine ⟨?_, by positivity⟩
    rw [base]
    simp only [trendIndicator, gt_iff_lt, if_pos hpos, habs, sub_pos, apply_ite some]
  · intro hnone
    rw [base, trendIndicator_none t? p hnone]

/-- Witness for C5 at a concrete input. -/
theorem monthly_trend_indicator_witness :
    trendPrevDate none ⟨2025, 10, 15⟩ = some ⟨2025, 9, 30⟩ ∧
    prevTotalOf ((fun _ : String => PrevRead.amounts [5]) (prevPath ⟨2025, 9, 30⟩)) = 5 ∧
    (0 : ℚ) < 5 ∧
    (calculate_monthly_trend "x" (some 100) none ⟨2025, 10, 15⟩
        (fun _ => PrevRead.amounts [5]) =
       some (formatMoney 5, fmtBY ⟨2025, 9, 30⟩,
         some (if |(100 : ℚ) - 5| / 5 * 100 < 5 then
                 ⟨"≈", |(100 : ℚ) - 5| / 5 * 100, "similar", "#999999"⟩
               else if (5 : ℚ) < 100 then
                 ⟨"▲", |(100 : ℚ) - 5| / 5 * 100, "increase", "#C00000"⟩
               else ⟨"▼", |(100 : ℚ) - 5| / 5 * 100, "decrease", "#666666"⟩)) ∧
     (0 : ℚ) ≤ |(100 : ℚ) - 5| / 5 * 100) :=
  ⟨by decide, by simp [prevTotalOf], by norm_num,
   (monthly_trend_indicator "x" (some 100) none ⟨2025, 10, 15⟩
       (fun _ => PrevRead.amounts [5]) ⟨2025, 9, 30⟩ 5
       (by decide) (by simp [prevTotalOf])).1 100 rfl (by norm_num)⟩

/-- C6: when the previous month's file is missing or cannot be read or
parsed, the previous total is zero: the formatted total is `"$0.00"`, the
previous month's name is still returned, and the indicator is `None`
regardless of the current-month total. -/
theorem trend_missing_or_unreadable_file (folder : String) (t? : Option ℚ)
    (key : Option String) (now : Date) (fs : String → PrevRead) (pd : Date)
    (hpd : trendPrevDate key now = some pd)
    (hfs : fs (prevPath pd) = PrevRead.missing ∨ fs (prevPath pd) = PrevRead.failed) :
    calculate_monthly_trend folder t? key now fs = some ("$0.00", fmtBY pd, none) := by
  have hp : prevTotalOf (fs (prevPath pd)) = 0 := by
    rcases hfs with h | h <;> rw [h] <;> rfl
  rw [calculate_monthly_trend_eval folder t? key now fs pd 0 hpd hp,
    trendIndicator_none t? 0 (Or.inr (by norm_num)), formatMoney_zero]

/-- Witness for C6 at a concrete input. -/
theorem trend_missing_or_unreadable_file_witness :
    trendPrevDate none ⟨2025, 10, 15⟩ = some ⟨2025, 9, 30⟩ ∧
    ((fun _ : String => PrevRead.missing) (prevPath ⟨2025, 9, 30⟩) = PrevRead.missing ∨
     (fun _ : String => PrevRead.missing) (prevPath ⟨2025, 9, 30⟩) = PrevRead.failed) ∧
    calculate_monthly_trend "x" (some 100) none ⟨2025, 10, 15⟩
      (fun _ => PrevRead.missing) = some ("$0.00", fmtBY ⟨2025, 9, 30⟩, none) :=
  ⟨by decide, Or.inl rfl,
   trend_missing_or_unreadable_file "x" (some 100) none ⟨2025, 10, 15⟩
     (fun _ => PrevRead.missing) ⟨2025, 9, 30⟩ (by decide) (Or.inl rfl)⟩

/-- C1 counterexample: `calculate_monthly_trend` is not a function of its
explicit arguments alone; with identical folder / total / month-key
arguments, two filesystem states give different results. -/
theorem trend_depends_on_filesystem_counterexample :
    calculate_monthly_trend "data_2025-09" (some 100) (some "2025-10") ⟨2025, 1, 1⟩
        (fun _ => PrevRead.missing) ≠
      calculate_monthly_trend "data_2025-09" (some 100) (some "2025-10") ⟨2025, 1, 1⟩
        (fun _ => PrevRead.amounts [5]) := by
  have hpd : trendPrevDate (some "2025-10") ⟨2025, 1, 1⟩ = some ⟨2025, 9, 30⟩ := by
    decide
  intro h
  have h1 : calculate_monthly_trend "data_2025-09" (some 100) (some "2025-10")
      ⟨2025, 1, 1⟩ (fun _ => PrevRead.missing) =
      some (formatMoney 0, fmtBY ⟨2025, 9, 30⟩, none) := by
    rw [calculate_monthly_trend_eval "data_2025-09" (some 100) (some "2025-10")
      ⟨2025, 1, 1⟩ (fun _ => PrevRead.missing) ⟨2025, 9, 30⟩ 0 hpd rfl,
      trendIndicator_none _ _ (Or.inr (by norm_num))]
  have h2 : calculate_monthly_trend "data_2025-09" (some 100) (some "2025-10")
      ⟨2025, 1, 1⟩ (fun _ => PrevRead.amounts [5]) =
      some (formatMoney 5, fmtBY ⟨2025, 9, 30⟩, trendIndicator (some 100) 5) :=
    calculate_monthly_trend_eval "data_2025-09" (some 100) (some "2025-10")
      ⟨2025, 1, 1⟩ (fun _ => PrevRead.amounts [5]) ⟨2025, 9, 30⟩ 5 hpd
      (by simp [prevTotalOf])
  have h3 : trendIndicator (some 100) 5 =
      some ⟨"▲", 1900, "increase", "#C00000"⟩ := by
    norm_num [trendIndicator]
  rw [h1, h2, h3] at h
  simp at h

/-- C1 (amended): every analytics calculation other than
`calculate_monthly_trend`, given an explicit `current_date`, is independent of
the ambient clock (and reads no other state); `calculate_monthly_trend` with a
non-empty explicit `viewed_month_key` is likewise clock-independent for a
fixed filesystem (the empty key is falsy in Python and falls back to the
clock, like an absent key), and is a function of its arguments together with
the filesystem state. -/
theorem analytics_independent_of_ambient_state :
    (∀ (xs : List Expense) (d n1 n2 : Date),
       calculate_daily_average xs (some d) n1 = calculate_daily_average xs (some d) n2 ∧
       calculate_weekly_average xs (some d) n1 = calculate_weekly_average xs (some d) n2 ∧
       calculate_weekly_pace xs (some d) n1 = calculate_weekly_pace xs (some d) n2 ∧
       calculate_median_expense xs (some d) n1 = calculate_median_expense xs (some d) n2 ∧
       calculate_largest_expense xs (some d) n1 = calculate_largest_expense xs (some d) n2) ∧
    (∀ (d n1 n2 : Date),
       calculate_day_progress (some d) n1 = calculate_day_progress (some d) n2 ∧
       calculate_week_progress (some d) n1 = calculate_week_progress (some d) n2) ∧
    (∀ (folder : String) (t? : Option ℚ) (k : String) (n1 n2 : Date)
       (fs : String → PrevRead), k ≠ "" →
       calculate_monthly_trend folder t? (some k) n1 fs =
         calculate_monthly_trend folder t? (some k) n2 fs) ∧
    (∀ (folder : String) (t? : Option ℚ) (key : Option String) (now : Date)
       (fs1 fs2 : String → PrevRead), (∀ q, fs1 q = fs2 q) →
       calculate_monthly_trend folder t? key now fs1 =
         calculate_monthly_trend folder t? key now fs2) := by
  refine ⟨fun xs d n1 n2 => ⟨?_, ?_, ?_, ?_, ?_⟩, fun d n1 n2 => ⟨rfl, rfl⟩,
    fun folder t? k n1 n2 fs hk => ?_, fun folder t? key now fs1 fs2 h => ?_⟩
  · cases xs <;> rfl
  · cases xs <;> rfl
  · cases xs <;> rfl
  · rfl
  · rfl
  · simp only [calculate_monthly_trend, trendPrevDate, if_neg hk]
  · rw [funext h]

/-- Witness for the hypothesis-bearing conjuncts of the C1 amendment. -/
theorem analytics_independent_of_ambient_state_witness :
    (("2025-10" : String) ≠ "" ∧
     calculate_monthly_trend "x" none (some "2025-10") ⟨2025, 10, 15⟩
         (fun _ => PrevRead.missing) =
       calculate_monthly_trend "x" none (some "2025-10") ⟨2025, 11, 20⟩
         (fun _ => PrevRead.missing)) ∧
    calculate_monthly_trend "x" none none ⟨2025, 10, 15⟩ (fun _ => PrevRead.missing) =
      calculate_monthly_trend "x" none none ⟨2025, 10, 15⟩ (fun _ => PrevRead.missing) :=
  ⟨⟨by decide,
    analytics_independent_of_ambient_state.2.2.1 "x" none "2025-10" ⟨2025, 10, 15⟩
      ⟨2025, 11, 20⟩ (fun _ => PrevRead.missing) (by decide)⟩,
   analytics_independent_of_ambient_state.2.2.2 "x" none none ⟨2025, 10, 15⟩ _ _
     (fun _ => rfl)⟩

/-! ## Lemmas for the description-history sort -/

/-- Lexicographic string order is total. -/
theorem charListLe_total : ∀ (a b : List Char), (charListLe a b || charListLe b a) = true := by
  intro a
  induction a with
  | nil =>
    intro b
    simp [charListLe]
  | cons x xs ih =>
    intro b
    cases b with
    | nil => simp [charListLe]
    | cons y ys =>
      have hih := ih ys
      simp only [charListLe, Bool.or_eq_true, Bool.and_eq_true, decide_eq_true_eq] at hih ⊢
      rcases Nat.lt_trichotomy x.toNat y.toNat with hl | he | hg
      · exact Or.inl (Or.inl hl)
      · rcases hih with h | h
        · exact Or.inl (Or.inr ⟨he, h⟩)
        · exact Or.inr (Or.inr ⟨he.symm, h⟩)
      · exact Or.inr (Or.inl hg)

/-- Lexicographic string order is transitive. -/
theorem charListLe_trans : ∀ (a b c : List Char), charListLe a b = true →
    charListLe b c = true → charListLe a c = true := by
  intro a
  induction a with
  | nil => intro b c _ _; simp [charListLe]
  | cons x xs ih =>
    intro b c hab hbc
    cases b with
    | nil => simp [charListLe] at hab
    | cons y ys =>
      cases c with
      | nil => simp [charListLe] at hbc
      | cons z zs =>
        simp only [charListLe, Bool.or_eq_true, Bool.and_eq_true,
          decide_eq_true_eq] at hab hbc ⊢
        rcases hab with h1 | ⟨h1, h1t⟩ <;> rcases hbc with h2 | ⟨h2, h2t⟩
        · exact Or.inl (by omega)
        · exact Or.inl (by omega)
        · exact Or.inl (by omega)
        · exact Or.inr ⟨by omega, ih ys zs h1t h2t⟩

/-- The phase-1 comparator is transitive. -/
theorem le1_trans : ∀ (a b c : DescEntry), le1 a b = true → le1 b c = true →
    le1 a c = true := by
  intro a b c hab hbc
  simp only [le1, Bool.or_eq_true, Bool.and_eq_true, decide_eq_true_eq] at hab hbc ⊢
  rcases hab with h1 | ⟨h1, h1t⟩ <;> rcases hbc with h2 | ⟨h2, h2t⟩
  · exact Or.inl (by omega)
  · exact Or.inl (by omega)
  · exact Or.inl (by omega)
  · exact Or.inr ⟨by omega, charListLe_trans _ _ _ h1t h2t⟩

/-- The phase-1 comparator is total. -/
theorem le1_total : ∀ (a b : DescEntry), (le1 a b || le1 b a) = true := by
  intro a b
  simp only [le1, Bool.or_eq_true, Bool.and_eq_true, decide_eq_true_eq]
  rcases Nat.lt_trichotomy a.count b.count with hl | he | hg
  · exact Or.inr (Or.inl hl)
  · have := charListLe_total a.last_used.data b.last_used.data
    simp only [Bool.or_eq_true] at this
    rcases this with h | h
    · exact Or.inl (Or.inr ⟨he, h⟩)
    · exact Or.inr (Or.inr ⟨he.symm, h⟩)
  · exact Or.inl (Or.inl hg)

/-- The phase-2 comparator is transitive. -/
theorem le2_trans : ∀ (a b c : DescEntry), le2 a b = true → le2 b c = true →
    le2 a c = true :=
  fun _ _ _ hab hbc => charListLe_trans _ _ _ hbc hab

/-- The phase-2 comparator is total. -/
theorem le2_total : ∀ (a b : DescEntry), (le2 a b || le2 b a) = true := by
  intro a b
  have := charListLe_total b.last_used.data a.last_used.data
  simpa [le2, Bool.or_comm] using this

/-- The head of a nonempty `dropWhile` result fails the predicate. -/
theorem dropWhile_head_false {α : Type} (p : α → Bool) :
    ∀ (l : List α) (r : α) (rs : List α), l.dropWhile p = r :: rs → p r = false := by
  intro l
  induction l with
  | nil => intro r rs h; simp [List.dropWhile] at h
  | cons x xs ih =>
    intro r rs h
    rw [List.dropWhile_cons] at h
    split at h
    · exact ih _ _ h
    · cases h
      simp_all

/-- `resortGroups` permutes its input. -/
theorem resortGroups_perm : ∀ (l : List DescEntry), (resortGroups l).Perm l
  | [] => by simp [resortGroups]
  | h :: t => by
    simp only [resortGroups]
    have hperm := resortGroups_perm (t.dropWhile (fun e => e.count == h.count))
    have e : (h :: t.takeWhile (fun e => e.count == h.count)) ++
        t.dropWhile (fun e => e.count == h.count) = h :: t := by
      rw [List.cons_append, List.takeWhile_append_dropWhile]
    exact e ▸ ((List.mergeSort_perm _ _).append hperm)
termination_by l => l.length
decreasing_by
  simp only [List.length_cons]
  exact Nat.lt_succ_of_le (List.Sublist.length_le (List.dropWhile_sublist _))

/-- Phase 2 on a phase-1-sorted list yields the claimed order: count
descending, `last_used` descending within equal counts. -/
theorem resortGroups_pairwise : ∀ (l : List DescEntry),
    List.Pairwise (fun a b => le1 a b = true) l →
    List.Pairwise entryOrder (resortGroups l)
  | [] => by simp [resortGroups]
  | h :: t => by
    intro hp
    simp only [resortGroups]
    rw [List.pairwise_append]
    have hpt : List.Pairwise (fun a b => le1 a b = true) t := hp.of_cons
    have hrel : ∀ b ∈ t, le1 h b = true := fun b hb => List.rel_of_pairwise_cons hp hb
    have htw_count : ∀ x ∈ h :: t.takeWhile (fun e => e.count == h.count),
        x.count = h.count := by
      intro x hx
      rcases List.mem_cons.mp hx with rfl | hx2
      · rfl
      · have := List.mem_takeWhile_imp hx2
        simpa using this
    have hmem_ms : ∀ x ∈ (h :: t.takeWhile (fun e => e.count == h.count)).mergeSort le2,
        x.count = h.count := by
      intro x hx
      exact htw_count x ((List.mergeSort_perm _ _).mem_iff.mp hx)
    have hrest_lt : ∀ b ∈ t.dropWhile (fun e => e.count == h.count),
        b.count < h.count := by
      intro b hb
      have hsubt : (t.dropWhile (fun e => e.count == h.count)).Sublist t :=
        List.dropWhile_sublist _
      cases hdw : t.dropWhile (fun e => e.count == h.count) with
      | nil => rw [hdw] at hb; cases hb
      | cons r rs =>
        have hrfalse := dropWhile_head_false _ t r rs hdw
        have hrt : r ∈ t := hsubt.subset (by rw [hdw]; exact List.mem_cons_self _ _)
        have hr_ne : r.count ≠ h.count := by simpa using hrfalse
        have hr_le := hrel r hrt
        simp only [le1, Bool.or_eq_true, Bool.and_eq_true, decide_eq_true_eq] at hr_le
        have hr_lt : r.count < h.count := by
          rcases hr_le with h1 | ⟨h1, _⟩ <;> omega
        rw [hdw] at hb
        rcases List.mem_cons.mp hb with rfl | hbrs
        · exact hr_lt
        · have hpdw : List.Pairwise (fun a b => le1 a b = true) (r :: rs) := by
            rw [← hdw]
            exact hpt.sublist hsubt
          have hrb := List.rel_of_pairwise_cons hpdw hbrs
          simp only [le1, Bool.or_eq_true, Bool.and_eq_true, decide_eq_true_eq] at hrb
          rcases hrb with h1 | ⟨h1, _⟩ <;> omega
    refine ⟨?_, ?_, ?_⟩
    · have hs := List.sorted_mergeSort le2_trans le2_total
        (h :: t.takeWhile (fun e => e.count == h.count))
      refine hs.imp_of_mem ?_
      intro a b ha hb hab
      exact Or.inr ⟨by rw [hmem_ms a ha, hmem_ms b hb], hab⟩
    · exact resortGroups_pairwise _ (hpt.sublist (List.dropWhile_sublist _))
    · intro a ha b hb
      have hbrest := (resortGroups_perm _).mem_iff.mp hb
      exact Or.inl (by rw [hmem_ms a ha]; exact hrest_lt b hbrest)
termination_by l => l.length
decreasing_by
  simp only [List.length_cons]
  exact Nat.lt_succ_of_le (List.Sublist.length_le (List.dropWhile_sublist _))

/-- `updateFirst` changes no entry's text. -/
theorem updateFirst_map_key (key : List Char) (today : String) (amount : ℚ) :
    ∀ l : List DescEntry,
      (updateFirst key today amount l).map (fun d => lowerKey d.text) =
        l.map (fun d => lowerKey d.text) := by
  intro l
  induction l with
  | nil => rfl
  | cons h t ih =>
    simp only [updateFirst]
    split
    · simp
    · simp [ih]

/-- C10: `add_or_update` with a blank description leaves the list unchanged;
with a non-blank description the result is sorted by count descending with
ties by `last_used` descending, never exceeds `max_descriptions`, and
preserves at-most-one-entry-per-case-insensitive-text. -/
theorem add_or_update_invariants (descriptions : List DescEntry)
    (description : String) (amount : ℚ) (today : String) (max_descriptions : Nat) :
    (pyStrip description = "" →
       add_or_update descriptions description amount today max_descriptions =
         descriptions) ∧
    (pyStrip description ≠ "" →
       List.Pairwise entryOrder
         (add_or_update descriptions description amount today max_descriptions) ∧
       (add_or_update descriptions description amount today max_descriptions).length ≤
         max_descriptions ∧
       ((descriptions.map (fun d => lowerKey d.text)).Nodup →
        ((add_or_update descriptions description amount today max_descriptions).map
          (fun d => lowerKey d.text)).Nodup)) := by
  constructor
  · intro h
    simp [add_or_update, h]
  · intro h
    have hmain : ∀ updated : List DescEntry,
        List.Pairwise entryOrder
          ((resortGroups (updated.mergeSort le1)).take max_descriptions) :=
      fun updated =>
        List.Pairwise.sublist (List.take_sublist _ _)
          (resortGroups_pairwise _ (List.sorted_mergeSort le1_trans le1_total updated))
    have hlen : ∀ updated : List DescEntry,
        ((resortGroups (updated.mergeSort le1)).take max_descriptions).length ≤
          max_descriptions := fun _ => List.length_take_le _ _
    have hnd : ∀ updated : List DescEntry,
        ((updated.map (fun d => lowerKey d.text)).Nodup) →
        (((resortGroups (updated.mergeSort le1)).take max_descriptions).map
          (fun d => lowerKey d.text)).Nodup := by
      intro updated hu
      have p1 := (List.mergeSort_perm updated le1).map (fun d => lowerKey d.text)
      have p2 := (resortGroups_perm (updated.mergeSort le1)).map
        (fun d => lowerKey d.text)
      have hnd2 : ((resortGroups (updated.mergeSort le1)).map
          (fun d => lowerKey d.text)).Nodup := ((p2.trans p1).nodup_iff).mpr hu
      exact List.Nodup.sublist (List.Sublist.map _ (List.take_sublist _ _)) hnd2
    simp only [add_or_update, if_neg h]
    refine ⟨hmain _, hlen _, fun hpre => hnd _ ?_⟩
    split
    · rw [updateFirst_map_key]
      exact hpre
    · rename_i hany
      simp only [List.any_eq_true, decide_eq_true_eq, not_exists, not_and] at hany
      have hnotin : lowerKey (pyStrip description) ∉
          descriptions.map (fun d => lowerKey d.text) := by
        intro hmem
        rcases List.mem_map.mp hmem with ⟨d, hd, hdk⟩
        exact hany d hd hdk
      simp only [List.map_append, List.map_cons, List.map_nil]
      rw [List.nodup_append]
      exact ⟨hpre, List.nodup_singleton _, by
        intro a ha hb
        simp only [List.mem_singleton] at hb
        subst hb
        exact hnotin ha⟩

/-- Witness for C10 at a concrete input. -/
theorem add_or_update_invariants_witness :
    pyStrip " Coffee " ≠ "" ∧
    List.Pairwise entryOrder (add_or_update [] " Coffee " 3 "2025-10-12" 50) ∧
    (add_or_update [] " Coffee " 3 "2025-10-12" 50).length ≤ 50 ∧
    ((add_or_update [] " Coffee " 3 "2025-10-12" 50).map
      (fun d => lowerKey d.text)).Nodup := by
  have h := (add_or_update_invariants [] " Coffee " 3 "2025-10-12" 50).2 (by decide)
  exact ⟨by decide, h.1, h.2.1, h.2.2 (by simp)⟩

/-- Witness for C3 at a concrete input. -/
theorem invalid_date_contributes_nothing_witness :
    parse_date "2025-13-05" = none ∧
    ((∀ xs : List Expense, (⟨"2025-13-05", 10, "x"⟩ : Expense) ∉
        _filter_expenses_by_date_range xs none (some ⟨2025, 10, 15⟩) ⟨2025, 10, 15⟩) ∧
     _filter_expenses_by_date_range
         ([⟨"2025-10-14", 4, "a"⟩] ++ ⟨"2025-13-05", 10, "x"⟩ :: [])
         none (some ⟨2025, 10, 15⟩) ⟨2025, 10, 15⟩ =
       _filter_expenses_by_date_range ([⟨"2025-10-14", 4, "a"⟩] ++ [])
         none (some ⟨2025, 10, 15⟩) ⟨2025, 10, 15⟩ ∧
     (calculate_daily_average ([⟨"2025-10-14", 4, "a"⟩] ++ ⟨"2025-13-05", 10, "x"⟩ :: [])
         (some ⟨2025, 10, 15⟩) ⟨2025, 10, 15⟩).1 =
       (calculate_daily_average ([⟨"2025-10-14", 4, "a"⟩] ++ [])
         (some ⟨2025, 10, 15⟩) ⟨2025, 10, 15⟩).1 ∧
     (calculate_weekly_average ([⟨"2025-10-14", 4, "a"⟩] ++ ⟨"2025-13-05", 10, "x"⟩ :: [])
         (some ⟨2025, 10, 15⟩) ⟨2025, 10, 15⟩).1 =
       (calculate_weekly_average ([⟨"2025-10-14", 4, "a"⟩] ++ [])
         (some ⟨2025, 10, 15⟩) ⟨2025, 10, 15⟩).1 ∧
     (calculate_weekly_pace ([⟨"2025-10-14", 4, "a"⟩] ++ ⟨"2025-13-05", 10, "x"⟩ :: [])
         (some ⟨2025, 10, 15⟩) ⟨2025, 10, 15⟩).1 =
       (calculate_weekly_pace ([⟨"2025-10-14", 4, "a"⟩] ++ [])
         (some ⟨2025, 10, 15⟩) ⟨2025, 10, 15⟩).1 ∧
     calculate_median_expense ([⟨"2025-10-14", 4, "a"⟩] ++ ⟨"2025-13-05", 10, "x"⟩ :: [])
         (some ⟨2025, 10, 15⟩) ⟨2025, 10, 15⟩ =
       calculate_median_expense ([⟨"2025-10-14", 4, "a"⟩] ++ [])
         (some ⟨2025, 10, 15⟩) ⟨2025, 10, 15⟩ ∧
     calculate_largest_expense ([⟨"2025-10-14", 4, "a"⟩] ++ ⟨"2025-13-05", 10, "x"⟩ :: [])
         (some ⟨2025, 10, 15⟩) ⟨2025, 10, 15⟩ =
       calculate_largest_expense ([⟨"2025-10-14", 4, "a"⟩] ++ [])
         (some ⟨2025, 10, 15⟩) ⟨2025, 10, 15⟩) :=
  ⟨by decide,
   invalid_date_expense_contributes_nothing ⟨"2025-13-05", 10, "x"⟩ (by decide)
     [⟨"2025-10-14", 4, "a"⟩] [] none (some ⟨2025, 10, 15⟩) ⟨2025, 10, 15⟩
     (some ⟨2025, 10, 15⟩) ⟨2025, 10, 15⟩⟩

end LiteFinPad
